import Mathlib

/-!
Verification of the two rate limiters of this repository:
`SlidingWindowRateLimiter` (src/task_1.py) and `ThrottlingRateLimiter`
(src/task_2.py).

Embedding choices:
* Timestamps (Python `time.time()` floats) are modelled as rationals `ℚ`;
  every operation takes the current time explicitly as an argument, matching
  the spec's requirement of a single clock reading per call.
* Python dicts are modelled as insertion-ordered association lists
  `List (String × β)`: updating an existing key keeps its position,
  inserting a fresh key appends at the end, deletion removes the entry.
* `max_requests` is a Python `int`, modelled as `ℤ`.
* Mutating methods are state transformers returning `result × new state`;
  methods performing no write are pure functions of the state.
-/

/-! ## Definitions -/

/-- Python dict read `m[k]` / `k in m`: first binding of `k`, if any. -/
def lookupKey (k : String) : List (String × β) → Option β
  | [] => none
  | (k', v) :: rest => if k' = k then some v else lookupKey k rest

/-- Python dict write `m[k] = v`: replace the first binding of `k` in place,
or append a fresh binding at the end (Python dicts are insertion ordered). -/
def setKey (k : String) (v : β) : List (String × β) → List (String × β)
  | [] => [(k, v)]
  | (k', v') :: rest => if k' = k then (k, v) :: rest else (k', v') :: setKey k v rest

/-- Python dict delete `del m[k]`: remove the bindings of `k`.  On the
duplicate-free lists produced by `setKey` from `[]` this removes exactly the
one binding a Python dict holds. -/
def eraseKey (k : String) : List (String × β) → List (String × β)
  | [] => []
  | (k', v) :: rest => if k' = k then eraseKey k rest else (k', v) :: eraseKey k rest

/-- The prune loop of `_cleanup_window`:
`while timestamps and timestamps[0] < cutoff: timestamps.popleft()`. -/
def pruneTs (cutoff : ℚ) : List ℚ → List ℚ
  | [] => []
  | x :: rest => if x < cutoff then pruneTs cutoff rest else x :: rest

/-- The state of `SlidingWindowRateLimiter` (src/task_1.py): configuration
fixed at construction and the dict `user_messages` from identity to the
deque of accepted timestamps. -/
structure SlidingWindowRateLimiter where
  window_size : ℚ
  max_requests : ℤ
  user_messages : List (String × List ℚ)
  deriving DecidableEq, Repr

namespace SlidingWindowRateLimiter

/-- `SlidingWindowRateLimiter(window_size, max_requests)`: fresh empty dict. -/
def init (w : ℚ) (m : ℤ) : SlidingWindowRateLimiter :=
  { window_size := w, max_requests := m, user_messages := [] }

/-- `_cleanup_window(user_id, current_time)`: drop timestamps older than
`current_time - window_size` from the front of the identity's deque, and
delete the entry if the deque empties.  The surviving deque is mutated in
place, so its position in the dict is preserved (`setKey`). -/
def cleanup_window (s : SlidingWindowRateLimiter) (uid : String) (t : ℚ) :
    SlidingWindowRateLimiter :=
  match lookupKey uid s.user_messages with
  | none => s
  | some ts =>
      let ts' := pruneTs (t - s.window_size) ts
      if ts' = [] then { s with user_messages := eraseKey uid s.user_messages }
      else { s with user_messages := setKey uid ts' s.user_messages }

/-- `can_send_message(user_id)`: prune, then `True` if the identity is absent,
else `len(timestamps) < max_requests`.  Returns the decision and the state
left behind by the prune. -/
def can_send_message (s : SlidingWindowRateLimiter) (uid : String) (t : ℚ) :
    Bool × SlidingWindowRateLimiter :=
  let s1 := s.cleanup_window uid t
  match lookupKey uid s1.user_messages with
  | none => (true, s1)
  | some ts => (decide ((ts.length : ℤ) < s.max_requests), s1)

/-- `record_message(user_id)`: prune; create an empty deque for an absent
identity; if `len(timestamps) < max_requests` append the current time and
return `True`, else return `False`. -/
def record_message (s : SlidingWindowRateLimiter) (uid : String) (t : ℚ) :
    Bool × SlidingWindowRateLimiter :=
  let s1 := s.cleanup_window uid t
  let s2 := match lookupKey uid s1.user_messages with
    | none => { s1 with user_messages := setKey uid [] s1.user_messages }
    | some _ => s1
  let ts := (lookupKey uid s2.user_messages).getD []
  if (ts.length : ℤ) < s.max_requests then
    (true, { s2 with user_messages := setKey uid (ts ++ [t]) s2.user_messages })
  else
    (false, s2)

/-- `time_until_next_allowed(user_id)`: prune; `0.0` if absent or under the
cap; otherwise `max(timestamps[0] + window_size - current_time, 0.0)`.
After the prune a present deque is never empty, so Python's `timestamps[0]`
cannot fail; `List.headD` supplies the same head. -/
def time_until_next_allowed (s : SlidingWindowRateLimiter) (uid : String) (t : ℚ) :
    ℚ × SlidingWindowRateLimiter :=
  let s1 := s.cleanup_window uid t
  match lookupKey uid s1.user_messages with
  | none => (0, s1)
  | some ts =>
      if (ts.length : ℤ) < s.max_requests then (0, s1)
      else (max (ts.headD 0 + s.window_size - t) 0, s1)

end SlidingWindowRateLimiter

/-- A public call on the sliding-window limiter: which method, on which
identity. -/
inductive SWOp where
  | canSend (uid : String)
  | record (uid : String)
  | timeUntil (uid : String)
  deriving DecidableEq, Repr

/-- The identity a call is about. -/
def SWOp.ident : SWOp → String
  | .canSend uid => uid
  | .record uid => uid
  | .timeUntil uid => uid

namespace SlidingWindowRateLimiter

/-- State left behind by one public call made at time `t`. -/
def applyOp (s : SlidingWindowRateLimiter) : SWOp → ℚ → SlidingWindowRateLimiter
  | .canSend uid, t => (s.can_send_message uid t).2
  | .record uid, t => (s.record_message uid t).2
  | .timeUntil uid, t => (s.time_until_next_allowed uid t).2

/-- Run a sequence of public calls, each tagged with its clock reading. -/
def run (s : SlidingWindowRateLimiter) : List (SWOp × ℚ) → SlidingWindowRateLimiter
  | [] => s
  | (op, t) :: rest => (s.applyOp op t).run rest

end SlidingWindowRateLimiter

/-- The call times of a sliding-window event list, in order. -/
def swTimes (evs : List (SWOp × ℚ)) : List ℚ := evs.map Prod.snd

/-- The event list is driven by a non-decreasing clock. -/
def swTimesMono (evs : List (SWOp × ℚ)) : Prop := (swTimes evs).Chain' (· ≤ ·)

/-- Every deque stored in the sliding-window state satisfies `P`. -/
def EntriesSat (P : List ℚ → Prop) (s : SlidingWindowRateLimiter) : Prop :=
  ∀ uid ts, lookupKey uid s.user_messages = some ts → P ts

/-- The state of `ThrottlingRateLimiter` (src/task_2.py): the fixed
`min_interval` and the dict `user_last_message` from identity to the
timestamp of its last accepted message. -/
structure ThrottlingRateLimiter where
  min_interval : ℚ
  user_last_message : List (String × ℚ)
  deriving DecidableEq, Repr

namespace ThrottlingRateLimiter

/-- `ThrottlingRateLimiter(min_interval)`: fresh empty dict. -/
def init (d : ℚ) : ThrottlingRateLimiter :=
  { min_interval := d, user_last_message := [] }

/-- `can_send_message(user_id)`: `True` if the identity is unseen or
`current_time - last_time >= min_interval`.  The method performs no write,
so it is embedded as a pure function of the state. -/
def can_send_message (s : ThrottlingRateLimiter) (uid : String) (t : ℚ) : Bool :=
  match lookupKey uid s.user_last_message with
  | none => true
  | some last => decide (s.min_interval ≤ t - last)

/-- `record_message(user_id)`: if `can_send_message` then store the current
time and return `True`, else return `False` with no mutation.  The source
reads the clock once in the check and again in the store; the spec requires
one clock reference per call, so a single `t` serves both. -/
def record_message (s : ThrottlingRateLimiter) (uid : String) (t : ℚ) :
    Bool × ThrottlingRateLimiter :=
  if s.can_send_message uid t then
    (true, { s with user_last_message := setKey uid t s.user_last_message })
  else
    (false, s)

/-- `time_until_next_allowed(user_id)`: `0.0` for an unseen identity, else
`max(min_interval - (current_time - last_time), 0.0)`.  No write. -/
def time_until_next_allowed (s : ThrottlingRateLimiter) (uid : String) (t : ℚ) : ℚ :=
  match lookupKey uid s.user_last_message with
  | none => 0
  | some last => max (s.min_interval - (t - last)) 0

end ThrottlingRateLimiter

/-- A public call on the throttling limiter. -/
inductive TROp where
  | canSend (uid : String)
  | record (uid : String)
  | timeUntil (uid : String)
  deriving DecidableEq, Repr

/-- The identity a call is about. -/
def TROp.ident : TROp → String
  | .canSend uid => uid
  | .record uid => uid
  | .timeUntil uid => uid

namespace ThrottlingRateLimiter

/-- State left behind by one public call at time `t` (`can_send_message` and
`time_until_next_allowed` never write). -/
def applyOp (s : ThrottlingRateLimiter) : TROp → ℚ → ThrottlingRateLimiter
  | .canSend _, _ => s
  | .record uid, t => (s.record_message uid t).2
  | .timeUntil _, _ => s

/-- Run a sequence of public calls, each tagged with its clock reading. -/
def run (s : ThrottlingRateLimiter) : List (TROp × ℚ) → ThrottlingRateLimiter
  | [] => s
  | (op, t) :: rest => (s.applyOp op t).run rest

/-- Run a sequence of calls while appending each accepted `record` event
`(identity, time)` to a trace. -/
def runTrace (s : ThrottlingRateLimiter) (tr : List (String × ℚ)) :
    List (TROp × ℚ) → ThrottlingRateLimiter × List (String × ℚ)
  | [] => (s, tr)
  | (TROp.record uid, t) :: rest =>
      let r := s.record_message uid t
      runTrace r.2 (if r.1 then tr ++ [(uid, t)] else tr) rest
  | (TROp.canSend _, _) :: rest => runTrace s tr rest
  | (TROp.timeUntil _, _) :: rest => runTrace s tr rest

end ThrottlingRateLimiter

/-- The call times of a throttling event list, in order. -/
def trTimes (evs : List (TROp × ℚ)) : List ℚ := evs.map Prod.snd

/-- The event list is driven by a non-decreasing clock. -/
def trTimesMono (evs : List (TROp × ℚ)) : Prop := (trTimes evs).Chain' (· ≤ ·)

/-- The timestamps, in order, of the accepted events of one identity in a
trace. -/
def acceptTimes (uid : String) (tr : List (String × ℚ)) : List ℚ :=
  (tr.filter (fun e => decide (e.1 = uid))).map Prod.snd

/-! ## Association-list lemmas -/

@[simp]
theorem lookupKey_nil {k : String} : lookupKey k ([] : List (String × β)) = none := rfl

@[simp]
theorem lookupKey_cons {k k' : String} {v : β} {rest : List (String × β)} :
    lookupKey k ((k', v) :: rest) = if k' = k then some v else lookupKey k rest := rfl

@[simp]
theorem lookupKey_setKey_self (k : String) (v : β) (m : List (String × β)) :
    lookupKey k (setKey k v m) = some v := by
  induction m with
  | nil => simp [setKey]
  | cons hd tl ih =>
      obtain ⟨k', v'⟩ := hd
      by_cases h : k' = k <;> simp [setKey, h, ih]

theorem lookupKey_setKey_other {k k' : String} (h : k' ≠ k) (v : β)
    (m : List (String × β)) : lookupKey k' (setKey k v m) = lookupKey k' m := by
  have h2 : ¬ k = k' := fun hh => h hh.symm
  induction m with
  | nil => simp [setKey, h2]
  | cons hd tl ih =>
      obtain ⟨k₀, v₀⟩ := hd
      by_cases h₀ : k₀ = k
      · subst h₀
        simp [setKey, h2]
      · simp only [setKey, if_neg h₀, lookupKey_cons]
        by_cases h₁ : k₀ = k' <;> simp [h₁, ih]

@[simp]
theorem lookupKey_eraseKey_self (k : String) (m : List (String × β)) :
    lookupKey k (eraseKey k m) = none := by
  induction m with
  | nil => simp [eraseKey]
  | cons hd tl ih =>
      obtain ⟨k', v'⟩ := hd
      by_cases h : k' = k <;> simp [eraseKey, h, ih]

theorem lookupKey_eraseKey_other {k k' : String} (h : k' ≠ k)
    (m : List (String × β)) : lookupKey k' (eraseKey k m) = lookupKey k' m := by
  have h2 : ¬ k = k' := fun hh => h hh.symm
  induction m with
  | nil => simp [eraseKey]
  | cons hd tl ih =>
      obtain ⟨k₀, v₀⟩ := hd
      by_cases h₀ : k₀ = k
      · subst h₀
        simp [eraseKey, lookupKey, h2, ih]
      · simp only [eraseKey, if_neg h₀, lookupKey_cons]
        by_cases h₁ : k₀ = k' <;> simp [h₁, ih]

/-- Writing back the value a key already holds is a no-op, structurally:
the binding keeps its position, so the list is unchanged. -/
theorem setKey_lookup_self {k : String} {v : β} {m : List (String × β)}
    (h : lookupKey k m = some v) : setKey k v m = m := by
  induction m with
  | nil => simp [lookupKey] at h
  | cons hd tl ih =>
      obtain ⟨k', v'⟩ := hd
      by_cases h₀ : k' = k
      · subst h₀
        simp at h
        simp [setKey, h]
      · simp only [lookupKey_cons, if_neg h₀] at h
        simp [setKey, h₀, ih h]

/-- Overwriting a key twice keeps only the second write. -/
theorem setKey_setKey (k : String) (v v' : β) (m : List (String × β)) :
    setKey k v (setKey k v' m) = setKey k v m := by
  induction m with
  | nil => simp [setKey]
  | cons hd tl ih =>
      obtain ⟨k₀, v₀⟩ := hd
      by_cases h : k₀ = k <;> simp [setKey, h, ih]

/-- Values reachable by `lookupKey` after a `setKey`. -/
theorem lookupKey_setKey_cases (k k' : String) (v : β) (m : List (String × β)) :
    lookupKey k' (setKey k v m) =
      if k' = k then some v else lookupKey k' m := by
  by_cases h : k' = k
  · subst h; simp
  · simp [h, lookupKey_setKey_other h]

/-- Values reachable by `lookupKey` after an `eraseKey`. -/
theorem lookupKey_eraseKey_cases (k k' : String) (m : List (String × β)) :
    lookupKey k' (eraseKey k m) =
      if k' = k then none else lookupKey k' m := by
  by_cases h : k' = k
  · subst h; simp
  · simp [h, lookupKey_eraseKey_other h]

/-! ## Prune lemmas -/

@[simp]
theorem pruneTs_nil (c : ℚ) : pruneTs c [] = [] := rfl

theorem pruneTs_idem (c : ℚ) (l : List ℚ) : pruneTs c (pruneTs c l) = pruneTs c l := by
  induction l with
  | nil => rfl
  | cons x rest ih =>
      by_cases h : x < c <;> simp [pruneTs, h, ih]

theorem pruneTs_sublist (c : ℚ) (l : List ℚ) : (pruneTs c l).Sublist l := by
  induction l with
  | nil => simp
  | cons x rest ih =>
      by_cases h : x < c
      · simpa [pruneTs, h] using ih.trans (List.sublist_cons_self x rest)
      · simp [pruneTs, h]

theorem pruneTs_length_le (c : ℚ) (l : List ℚ) : (pruneTs c l).length ≤ l.length :=
  (pruneTs_sublist c l).length_le

/-- The head of a pruned list, when present, has survived the cutoff test. -/
theorem pruneTs_head_ge (c : ℚ) (l : List ℚ) {x : ℚ} {rest : List ℚ}
    (h : pruneTs c l = x :: rest) : c ≤ x := by
  induction l with
  | nil => simp [pruneTs] at h
  | cons y tl ih =>
      by_cases hy : y < c
      · exact ih (by simpa [pruneTs, hy] using h)
      · simp only [pruneTs, if_neg hy, List.cons.injEq] at h
        exact h.1 ▸ le_of_not_lt hy

/-! ## Sliding-window operation lemmas -/

namespace SlidingWindowRateLimiter

@[simp]
theorem cleanup_window_window_size (s : SlidingWindowRateLimiter) (uid : String) (t : ℚ) :
    (s.cleanup_window uid t).window_size = s.window_size := by
  unfold cleanup_window
  cases lookupKey uid s.user_messages with
  | none => rfl
  | some ts =>
      by_cases h : pruneTs (t - s.window_size) ts = [] <;> simp [h]

@[simp]
theorem cleanup_window_max_requests (s : SlidingWindowRateLimiter) (uid : String) (t : ℚ) :
    (s.cleanup_window uid t).max_requests = s.max_requests := by
  unfold cleanup_window
  cases lookupKey uid s.user_messages with
  | none => rfl
  | some ts =>
      by_cases h : pruneTs (t - s.window_size) ts = [] <;> simp [h]

/-- The identity's own entry after `_cleanup_window`: pruned, and gone if the
prune emptied it (or it was absent). -/
theorem lookupKey_cleanup_self (s : SlidingWindowRateLimiter) (uid : String) (t : ℚ) :
    lookupKey uid (s.cleanup_window uid t).user_messages =
      match lookupKey uid s.user_messages with
      | none => none
      | some ts =>
          if pruneTs (t - s.window_size) ts = [] then none
          else some (pruneTs (t - s.window_size) ts) := by
  unfold cleanup_window
  cases h : lookupKey uid s.user_messages with
  | none => simp [h]
  | some ts =>
      by_cases hp : pruneTs (t - s.window_size) ts = [] <;> simp [h, hp]

/-- `_cleanup_window` touches no other identity's entry. -/
theorem lookupKey_cleanup_other (s : SlidingWindowRateLimiter) {uid uid' : String}
    (h : uid' ≠ uid) (t : ℚ) :
    lookupKey uid' (s.cleanup_window uid t).user_messages =
      lookupKey uid' s.user_messages := by
  unfold cleanup_window
  cases hl : lookupKey uid s.user_messages with
  | none => rfl
  | some ts =>
      by_cases hp : pruneTs (t - s.window_size) ts = [] <;>
        simp [hp, lookupKey_eraseKey_other h, lookupKey_setKey_other h]

/-- Pruning twice at the same instant is pruning once. -/
theorem cleanup_window_idem (s : SlidingWindowRateLimiter) (uid : String) (t : ℚ) :
    (s.cleanup_window uid t).cleanup_window uid t = s.cleanup_window uid t := by
  cases h : lookupKey uid s.user_messages with
  | none =>
      have hs : s.cleanup_window uid t = s := by
        unfold cleanup_window
        simp [h]
      rw [hs, hs]
  | some ts =>
      by_cases hp : pruneTs (t - s.window_size) ts = []
      · have hs : s.cleanup_window uid t =
            { s with user_messages := eraseKey uid s.user_messages } := by
          unfold cleanup_window
          simp [h, hp]
        rw [hs]
        unfold cleanup_window
        simp
      · have hs : s.cleanup_window uid t =
            { s with user_messages := setKey uid (pruneTs (t - s.window_size) ts) s.user_messages } := by
          unfold cleanup_window
          simp [h, hp]
        rw [hs]
        unfold cleanup_window
        simp only [lookupKey_setKey_self]
        rw [pruneTs_idem]
        simp only [if_neg hp]
        rw [setKey_setKey]

/-- The decision of `can_send_message`, read off the pruned state. -/
theorem can_send_message_fst (s : SlidingWindowRateLimiter) (uid : String) (t : ℚ) :
    (s.can_send_message uid t).1 =
      match lookupKey uid (s.cleanup_window uid t).user_messages with
      | none => true
      | some ts => decide ((ts.length : ℤ) < s.max_requests) := by
  unfold can_send_message
  cases h : lookupKey uid (s.cleanup_window uid t).user_messages <;> simp [h]

/-- The state left by `can_send_message` is exactly the pruned state. -/
theorem can_send_message_snd (s : SlidingWindowRateLimiter) (uid : String) (t : ℚ) :
    (s.can_send_message uid t).2 = s.cleanup_window uid t := by
  unfold can_send_message
  cases h : lookupKey uid (s.cleanup_window uid t).user_messages <;> simp [h]

/-- The state left by `time_until_next_allowed` is exactly the pruned state. -/
theorem time_until_next_allowed_snd (s : SlidingWindowRateLimiter) (uid : String) (t : ℚ) :
    (s.time_until_next_allowed uid t).2 = s.cleanup_window uid t := by
  unfold time_until_next_allowed
  cases h : lookupKey uid (s.cleanup_window uid t).user_messages with
  | none => simp [h]
  | some ts => by_cases hl : (ts.length : ℤ) < s.max_requests <;> simp [h, hl]

/-- The returned wait, read off the pruned state. -/
theorem time_until_next_allowed_fst (s : SlidingWindowRateLimiter) (uid : String) (t : ℚ) :
    (s.time_until_next_allowed uid t).1 =
      match lookupKey uid (s.cleanup_window uid t).user_messages with
      | none => 0
      | some ts =>
          if (ts.length : ℤ) < s.max_requests then 0
          else max (ts.headD 0 + s.window_size - t) 0 := by
  unfold time_until_next_allowed
  cases h : lookupKey uid (s.cleanup_window uid t).user_messages with
  | none => simp [h]
  | some ts => by_cases hl : (ts.length : ℤ) < s.max_requests <;> simp [h, hl]

/-- Full case analysis of `record_message` over the pruned state. -/
theorem record_message_cases (s : SlidingWindowRateLimiter) (uid : String) (t : ℚ) :
    s.record_message uid t =
      match lookupKey uid (s.cleanup_window uid t).user_messages with
      | none =>
          if (0 : ℤ) < s.max_requests then
            (true, { s.cleanup_window uid t with
                      user_messages := setKey uid [t] (s.cleanup_window uid t).user_messages })
          else
            (false, { s.cleanup_window uid t with
                      user_messages := setKey uid [] (s.cleanup_window uid t).user_messages })
      | some ts =>
          if (ts.length : ℤ) < s.max_requests then
            (true, { s.cleanup_window uid t with
                      user_messages := setKey uid (ts ++ [t]) (s.cleanup_window uid t).user_messages })
          else
            (false, s.cleanup_window uid t) := by
  unfold record_message
  cases h : lookupKey uid (s.cleanup_window uid t).user_messages with
  | none =>
      by_cases hm : (0 : ℤ) < s.max_requests <;>
        simp [h, hm, setKey_setKey]
  | some ts =>
      have hset : setKey uid ts (s.cleanup_window uid t).user_messages =
          (s.cleanup_window uid t).user_messages := setKey_lookup_self h
      by_cases hl : (ts.length : ℤ) < s.max_requests <;>
        simp [h, hl]

end SlidingWindowRateLimiter

namespace SlidingWindowRateLimiter

@[simp]
theorem applyOp_window_size (s : SlidingWindowRateLimiter) (op : SWOp) (t : ℚ) :
    (s.applyOp op t).window_size = s.window_size := by
  cases op <;>
    simp [applyOp, can_send_message_snd, time_until_next_allowed_snd,
      record_message_cases]
  case record uid =>
    cases lookupKey uid (s.cleanup_window uid t).user_messages with
    | none => by_cases hm : (0 : ℤ) < s.max_requests <;> simp [hm]
    | some ts => by_cases hl : (ts.length : ℤ) < s.max_requests <;> simp [hl]

@[simp]
theorem applyOp_max_requests (s : SlidingWindowRateLimiter) (op : SWOp) (t : ℚ) :
    (s.applyOp op t).max_requests = s.max_requests := by
  cases op <;>
    simp [applyOp, can_send_message_snd, time_until_next_allowed_snd,
      record_message_cases]
  case record uid =>
    cases lookupKey uid (s.cleanup_window uid t).user_messages with
    | none => by_cases hm : (0 : ℤ) < s.max_requests <;> simp [hm]
    | some ts => by_cases hl : (ts.length : ℤ) < s.max_requests <;> simp [hl]

@[simp]
theorem run_window_size (evs : List (SWOp × ℚ)) :
    ∀ s : SlidingWindowRateLimiter, (s.run evs).window_size = s.window_size := by
  induction evs with
  | nil => intro s; rfl
  | cons ev rest ih =>
      intro s
      obtain ⟨op, t⟩ := ev
      rw [run, ih, applyOp_window_size]

@[simp]
theorem run_max_requests (evs : List (SWOp × ℚ)) :
    ∀ s : SlidingWindowRateLimiter, (s.run evs).max_requests = s.max_requests := by
  induction evs with
  | nil => intro s; rfl
  | cons ev rest ih =>
      intro s
      obtain ⟨op, t⟩ := ev
      rw [run, ih, applyOp_max_requests]

/-- The decision of `record_message`, read off the pruned state. -/
theorem record_message_fst (s : SlidingWindowRateLimiter) (uid : String) (t : ℚ) :
    (s.record_message uid t).1 =
      match lookupKey uid (s.cleanup_window uid t).user_messages with
      | none => decide ((0 : ℤ) < s.max_requests)
      | some ts => decide ((ts.length : ℤ) < s.max_requests) := by
  rw [record_message_cases]
  cases hlu : lookupKey uid (s.cleanup_window uid t).user_messages with
  | none => by_cases hpos : (0 : ℤ) < s.max_requests <;> simp [hpos]
  | some ts => by_cases hlen : (ts.length : ℤ) < s.max_requests <;> simp [hlen]

/-- Entries of the state left by `record_message`: the caller's entry is the
pruned deque, extended by `t` on accept and freshly created empty when the
identity was absent; every other entry is the pruned state's. -/
theorem lookupKey_record_snd (s : SlidingWindowRateLimiter) (uid : String) (t : ℚ)
    (uid' : String) :
    lookupKey uid' (s.record_message uid t).2.user_messages =
      if uid' = uid then
        (match lookupKey uid (s.cleanup_window uid t).user_messages with
         | none => if (0 : ℤ) < s.max_requests then some [t] else some []
         | some ts =>
             if (ts.length : ℤ) < s.max_requests then some (ts ++ [t]) else some ts)
      else lookupKey uid' (s.cleanup_window uid t).user_messages := by
  rw [record_message_cases]
  cases hlu : lookupKey uid (s.cleanup_window uid t).user_messages with
  | none =>
      by_cases hpos : (0 : ℤ) < s.max_requests <;>
        by_cases he : uid' = uid <;>
          simp [hpos, he, lookupKey_setKey_cases]
  | some ts =>
      by_cases hlen : (ts.length : ℤ) < s.max_requests <;>
        by_cases he : uid' = uid <;>
          simp [hlen, he, hlu, lookupKey_setKey_cases]

/-- `_cleanup_window` preserves a per-entry invariant, provided the invariant
survives a prune that does not empty the deque. -/
theorem entriesSat_cleanup {P : List ℚ → Prop}
    (hP : ∀ c l, P l → pruneTs c l ≠ [] → P (pruneTs c l))
    {s : SlidingWindowRateLimiter} (h : EntriesSat P s) (uid : String) (t : ℚ) :
    EntriesSat P (s.cleanup_window uid t) := by
  intro uid' ts' hl
  by_cases he : uid' = uid
  · subst he
    rw [lookupKey_cleanup_self] at hl
    cases hs : lookupKey uid' s.user_messages with
    | none => simp [hs] at hl
    | some ts =>
        simp only [hs] at hl
        by_cases hp : pruneTs (t - s.window_size) ts = []
        · simp [hp] at hl
        · simp only [if_neg hp, Option.some.injEq] at hl
          exact hl ▸ hP _ _ (h uid' ts hs) hp
  · rw [lookupKey_cleanup_other s he] at hl
    exact h uid' ts' hl

/-- One public call preserves the cap `len ≤ max(max_requests, 0)` on every
stored deque. -/
theorem entriesSat_len_applyOp {m : ℤ} {s : SlidingWindowRateLimiter}
    (hm : s.max_requests = m)
    (h : EntriesSat (fun ts => (ts.length : ℤ) ≤ max m 0) s) (op : SWOp) (t : ℚ) :
    EntriesSat (fun ts => (ts.length : ℤ) ≤ max m 0) (s.applyOp op t) := by
  have hprune : ∀ (c : ℚ) (l : List ℚ), ((l.length : ℤ) ≤ max m 0) →
      pruneTs c l ≠ [] → ((pruneTs c l).length : ℤ) ≤ max m 0 := by
    intro c l hlen _
    exact le_trans (by exact_mod_cast pruneTs_length_le c l) hlen
  have hclean := entriesSat_cleanup hprune h
  cases op with
  | canSend uid =>
      rw [applyOp, can_send_message_snd]
      exact hclean uid t
  | timeUntil uid =>
      rw [applyOp, time_until_next_allowed_snd]
      exact hclean uid t
  | record uid =>
      intro uid' ts' hl
      rw [applyOp, lookupKey_record_snd] at hl
      by_cases he : uid' = uid
      · rw [if_pos he] at hl
        cases hlu : lookupKey uid (s.cleanup_window uid t).user_messages with
        | none =>
            simp only [hlu] at hl
            by_cases hpos : (0 : ℤ) < s.max_requests
            · simp only [if_pos hpos, Option.some.injEq] at hl
              subst hl
              simp only [List.length_singleton, Nat.cast_one]
              omega
            · simp only [if_neg hpos, Option.some.injEq] at hl
              subst hl
              simp
        | some ts =>
            simp only [hlu] at hl
            by_cases hlen : (ts.length : ℤ) < s.max_requests
            · simp only [if_pos hlen, Option.some.injEq] at hl
              subst hl
              have := hclean uid t uid ts hlu
              simp only [List.length_append, List.length_singleton, Nat.cast_add,
                Nat.cast_one]
              rw [hm] at hlen
              omega
            · simp only [if_neg hlen, Option.some.injEq] at hl
              subst hl
              exact hclean uid t uid ts hlu
      · rw [if_neg he] at hl
        exact hclean uid t uid' ts' hl

/-- With a positive cap, one public call preserves "no stored deque is
empty". -/
theorem entriesSat_ne_applyOp {s : SlidingWindowRateLimiter}
    (hm : 1 ≤ s.max_requests)
    (h : EntriesSat (fun ts => ts ≠ []) s) (op : SWOp) (t : ℚ) :
    EntriesSat (fun ts => ts ≠ []) (s.applyOp op t) := by
  have hprune : ∀ (c : ℚ) (l : List ℚ), l ≠ [] →
      pruneTs c l ≠ [] → pruneTs c l ≠ [] := fun _ _ _ hp => hp
  have hclean := entriesSat_cleanup hprune h
  cases op with
  | canSend uid =>
      rw [applyOp, can_send_message_snd]
      exact hclean uid t
  | timeUntil uid =>
      rw [applyOp, time_until_next_allowed_snd]
      exact hclean uid t
  | record uid =>
      intro uid' ts' hl
      rw [applyOp, lookupKey_record_snd] at hl
      by_cases he : uid' = uid
      · rw [if_pos he] at hl
        cases hlu : lookupKey uid (s.cleanup_window uid t).user_messages with
        | none =>
            simp only [hlu, if_pos (by omega : (0 : ℤ) < s.max_requests),
              Option.some.injEq] at hl
            subst hl
            simp
        | some ts =>
            simp only [hlu] at hl
            by_cases hlen : (ts.length : ℤ) < s.max_requests
            · simp only [if_pos hlen, Option.some.injEq] at hl
              subst hl
              simp
            · simp only [if_neg hlen, Option.some.injEq] at hl
              subst hl
              exact hclean uid t uid ts hlu
      · rw [if_neg he] at hl
        exact hclean uid t uid' ts' hl

/-- With a non-positive cap, one public call preserves "every stored deque is
empty" (the only entries `record_message` can leave behind are the fresh
empty ones it creates before rejecting). -/
theorem entriesSat_empty_applyOp {s : SlidingWindowRateLimiter}
    (hm : s.max_requests ≤ 0)
    (h : EntriesSat (fun ts => ts = []) s) (op : SWOp) (t : ℚ) :
    EntriesSat (fun ts => ts = []) (s.applyOp op t) := by
  have hprune : ∀ (c : ℚ) (l : List ℚ), l = [] →
      pruneTs c l ≠ [] → pruneTs c l = [] := by
    intro c l hll hp
    subst hll
    simp at hp
  have hclean := entriesSat_cleanup hprune h
  cases op with
  | canSend uid =>
      rw [applyOp, can_send_message_snd]
      exact hclean uid t
  | timeUntil uid =>
      rw [applyOp, time_until_next_allowed_snd]
      exact hclean uid t
  | record uid =>
      intro uid' ts' hl
      rw [applyOp, lookupKey_record_snd] at hl
      by_cases he : uid' = uid
      · rw [if_pos he] at hl
        cases hlu : lookupKey uid (s.cleanup_window uid t).user_messages with
        | none =>
            simp only [hlu, if_neg (by omega : ¬ (0 : ℤ) < s.max_requests),
              Option.some.injEq] at hl
            exact hl.symm
        | some ts =>
            have hts : ts = [] := hclean uid t uid ts hlu
            subst hts
            simp only [hlu, if_neg (by simpa using hm : ¬ (([] : List ℚ).length : ℤ) < s.max_requests),
              Option.some.injEq] at hl
            exact hl.symm
      · rw [if_neg he] at hl
        exact hclean uid t uid' ts' hl

/-- A per-entry invariant closed under every public call holds along every
run; instantiated below for the three invariants of interest. -/
theorem entriesSat_len_run {m : ℤ} (evs : List (SWOp × ℚ)) :
    ∀ s : SlidingWindowRateLimiter, s.max_requests = m →
      EntriesSat (fun ts => (ts.length : ℤ) ≤ max m 0) s →
      EntriesSat (fun ts => (ts.length : ℤ) ≤ max m 0) (s.run evs) := by
  induction evs with
  | nil => intro s _ h; exact h
  | cons ev rest ih =>
      intro s hm h
      obtain ⟨op, t⟩ := ev
      rw [run]
      exact ih _ (by rw [applyOp_max_requests, hm]) (entriesSat_len_applyOp hm h op t)

theorem entriesSat_ne_run (evs : List (SWOp × ℚ)) :
    ∀ s : SlidingWindowRateLimiter, 1 ≤ s.max_requests →
      EntriesSat (fun ts => ts ≠ []) s →
      EntriesSat (fun ts => ts ≠ []) (s.run evs) := by
  induction evs with
  | nil => intro s _ h; exact h
  | cons ev rest ih =>
      intro s hm h
      obtain ⟨op, t⟩ := ev
      rw [run]
      exact ih _ (by rw [applyOp_max_requests]; exact hm) (entriesSat_ne_applyOp hm h op t)

theorem entriesSat_empty_run (evs : List (SWOp × ℚ)) :
    ∀ s : SlidingWindowRateLimiter, s.max_requests ≤ 0 →
      EntriesSat (fun ts => ts = []) s →
      EntriesSat (fun ts => ts = []) (s.run evs) := by
  induction evs with
  | nil => intro s _ h; exact h
  | cons ev rest ih =>
      intro s hm h
      obtain ⟨op, t⟩ := ev
      rw [run]
      exact ih _ (by rw [applyOp_max_requests]; exact hm) (entriesSat_empty_applyOp hm h op t)

/-- The fresh state satisfies every per-entry invariant vacuously. -/
theorem entriesSat_init (P : List ℚ → Prop) (w : ℚ) (m : ℤ) :
    EntriesSat P (init w m) := by
  intro uid ts h
  simp [init] at h

end SlidingWindowRateLimiter

/-! ## Throttling lemmas -/

/-- Appending one event to a trace extends exactly its own identity's accept
times. -/
theorem acceptTimes_append (uid uid' : String) (t : ℚ) (tr : List (String × ℚ)) :
    acceptTimes uid' (tr ++ [(uid, t)]) =
      acceptTimes uid' tr ++ (if uid = uid' then [t] else []) := by
  by_cases h : uid = uid' <;>
    simp [acceptTimes, List.filter_append, h]

namespace ThrottlingRateLimiter

@[simp]
theorem applyOp_min_interval (s : ThrottlingRateLimiter) (op : TROp) (t : ℚ) :
    (s.applyOp op t).min_interval = s.min_interval := by
  cases op with
  | canSend uid => rfl
  | timeUntil uid => rfl
  | record uid =>
      rw [applyOp, record_message]
      by_cases h : s.can_send_message uid t = true <;> simp [h]

@[simp]
theorem run_min_interval (evs : List (TROp × ℚ)) :
    ∀ s : ThrottlingRateLimiter, (s.run evs).min_interval = s.min_interval := by
  induction evs with
  | nil => intro s; rfl
  | cons ev rest ih =>
      intro s
      obtain ⟨op, t⟩ := ev
      rw [run, ih, applyOp_min_interval]

/-- Entries of the state left by `record_message`: the caller's entry is
overwritten with `t` exactly on accept; other entries are untouched. -/
theorem lookupKey_record_update (s : ThrottlingRateLimiter) (uid : String) (t : ℚ)
    (uid' : String) :
    lookupKey uid' (s.record_message uid t).2.user_last_message =
      if uid' = uid ∧ s.can_send_message uid t = true then some t
      else lookupKey uid' s.user_last_message := by
  rw [record_message]
  by_cases hc : s.can_send_message uid t = true
  · by_cases he : uid' = uid
    · subst he
      simp [hc]
    · simp [hc, he, lookupKey_setKey_other he]
  · simp [hc]

/-- Along `runTrace`, the stored last-message dict is exactly the last
accepted event per identity, and consecutive accepts of one identity stay at
least `min_interval` apart. -/
theorem runTrace_chain (d : ℚ) (evs : List (TROp × ℚ)) :
    ∀ (s : ThrottlingRateLimiter) (tr : List (String × ℚ)),
      s.min_interval = d →
      (∀ uid, lookupKey uid s.user_last_message = (acceptTimes uid tr).getLast?) →
      (∀ uid, (acceptTimes uid tr).Chain' (fun a b => d ≤ b - a)) →
      ∀ uid, (acceptTimes uid (runTrace s tr evs).2).Chain' (fun a b => d ≤ b - a) := by
  induction evs with
  | nil => intro s tr _ _ hchain uid; exact hchain uid
  | cons ev rest ih =>
      intro s tr hd hlast hchain uid
      obtain ⟨op, t⟩ := ev
      cases op with
      | canSend u => exact ih s tr hd hlast hchain uid
      | timeUntil u => exact ih s tr hd hlast hchain uid
      | record u =>
          rw [runTrace]
          by_cases hc : s.can_send_message u t = true
          · have hrec : (s.record_message u t).1 = true := by
              rw [record_message, if_pos hc]
            have hsnd : (s.record_message u t).2 =
                { s with user_last_message := setKey u t s.user_last_message } := by
              rw [record_message, if_pos hc]
            simp only [hrec, hsnd, reduceIte]
            refine ih _ _ ?_ ?_ ?_ uid
            · exact hd
            · intro uid'
              simp only
              rw [acceptTimes_append, lookupKey_setKey_cases]
              by_cases he : u = uid'
              · subst he
                simp [List.getLast?_concat]
              · have hne : ¬ uid' = u := fun hh => he hh.symm
                simp [he, hne, hlast uid']
            · intro uid'
              rw [acceptTimes_append]
              by_cases he : u = uid'
              · subst he
                rw [if_pos rfl]
                rw [List.chain'_append]
                refine ⟨hchain u, List.chain'_singleton t, ?_⟩
                intro x hx y hy
                simp only [List.head?_cons, Option.mem_def, Option.some.injEq] at hy
                subst hy
                rw [← hlast u] at hx
                rw [can_send_message] at hc
                cases hlu : lookupKey u s.user_last_message with
                | none => rw [hlu] at hx; simp at hx
                | some last =>
                    rw [hlu] at hx
                    simp only [Option.mem_def, Option.some.injEq] at hx
                    subst hx
                    rw [hlu] at hc
                    simp only [decide_eq_true_eq] at hc
                    rw [hd] at hc
                    linarith
              · simp only [if_neg he, List.append_nil]
                exact hchain uid'
          · have hrec : (s.record_message u t).1 = false := by
              rw [record_message, if_neg hc]
            have hsnd : (s.record_message u t).2 = s := by
              rw [record_message, if_neg hc]
            rw [hrec, if_neg (by simp), hsnd]
            exact ih s tr hd hlast hchain uid

/-- Every timestamp stored along a run is one of the run's call times: if all
call times are at most `t`, every stored last-message time is at most `t`. -/
theorem run_stored_le (t : ℚ) (evs : List (TROp × ℚ)) :
    ∀ s : ThrottlingRateLimiter,
      (∀ uid v, lookupKey uid s.user_last_message = some v → v ≤ t) →
      (∀ e ∈ evs, e.2 ≤ t) →
      ∀ uid v, lookupKey uid (s.run evs).user_last_message = some v → v ≤ t := by
  induction evs with
  | nil => intro s hs _ uid v hl; exact hs uid v hl
  | cons ev rest ih =>
      intro s hs hle uid v hl
      obtain ⟨op, te⟩ := ev
      have hte : te ≤ t := hle (op, te) (List.mem_cons_self _ _)
      have hrest : ∀ e ∈ rest, e.2 ≤ t := fun e he => hle e (List.mem_cons_of_mem _ he)
      rw [run] at hl
      refine ih (s.applyOp op te) ?_ hrest uid v hl
      intro uid' v' hl'
      cases op with
      | canSend u => exact hs uid' v' hl'
      | timeUntil u => exact hs uid' v' hl'
      | record u =>
          rw [applyOp, lookupKey_record_update] at hl'
          by_cases hcase : uid' = u ∧ s.can_send_message u te = true
          · rw [if_pos hcase] at hl'
            obtain rfl : te = v' := by simpa using hl'
            exact hte
          · rw [if_neg hcase] at hl'
            exact hs uid' v' hl'

end ThrottlingRateLimiter

namespace ThrottlingRateLimiter

/-- `record_message` answers exactly what `can_send_message` answers. -/
theorem record_fst_can_send (s : ThrottlingRateLimiter) (uid : String) (t : ℚ) :
    (s.record_message uid t).1 = s.can_send_message uid t := by
  cases h : s.can_send_message uid t <;> simp [record_message, h]

end ThrottlingRateLimiter

/-! ## Claims -/

open SlidingWindowRateLimiter in
/-- C1, counterexample: the claim fails as stated.  On a fresh limiter with
`max_requests = 0`, `can_send_message` returns true (the identity is absent
after the prune), yet `record_message` on the resulting state at the same
time returns false. -/
theorem claim_C1_counterexample :
    (((SlidingWindowRateLimiter.init 10 0).can_send_message "A" 0).1 = true) ∧
    ((((SlidingWindowRateLimiter.init 10 0).can_send_message "A" 0).2.record_message
        "A" 0).1 = false) := by
  decide

open SlidingWindowRateLimiter in
/-- C1 (amended with `1 ≤ max_requests`): for every state of
`SlidingWindowRateLimiter` with a positive cap, if `can_send_message`
evaluated at time `t` returns true, then `record_message` evaluated on the
resulting state at the same time `t` also returns true. -/
theorem claim_C1_amended (s : SlidingWindowRateLimiter) (uid : String) (t : ℚ)
    (hmax : 1 ≤ s.max_requests)
    (h : (s.can_send_message uid t).1 = true) :
    ((s.can_send_message uid t).2.record_message uid t).1 = true := by
  rw [can_send_message_fst] at h
  rw [can_send_message_snd, record_message_fst, cleanup_window_idem,
    cleanup_window_max_requests]
  cases hlu : lookupKey uid (s.cleanup_window uid t).user_messages with
  | none =>
      simp only [hlu, decide_eq_true_eq]
      omega
  | some ts =>
      simp only [hlu] at h ⊢
      exact h

/-- C1 witness: the amended theorem applied at a concrete input. -/
theorem claim_C1_witness :
    (((SlidingWindowRateLimiter.init 10 1).can_send_message "A" 0).2.record_message
      "A" 0).1 = true :=
  claim_C1_amended (SlidingWindowRateLimiter.init 10 1) "A" 0 (by decide) (by decide)

open SlidingWindowRateLimiter in
/-- C2, counterexample: with `max_requests = 0` the claim says
`can_send_message` returns false on every reachable state, but on the state
reached by one (rejected) `record_message` call it returns true. -/
theorem claim_C2_counterexample :
    (((SlidingWindowRateLimiter.init 10 0).run [(SWOp.record "B", 1)]).can_send_message
      "B" 2).1 = true := by
  decide

open SlidingWindowRateLimiter in
/-- C2 (amended): with `max_requests = 0`, on every reachable state
`record_message` returns false for every identity and time — every identity
is permanently rejected by `record_message` — but `can_send_message` returns
true (not false): on reachable states every stored deque is empty, so the
prune always removes the entry and the absent-identity branch answers true. -/
theorem claim_C2_amended (w : ℚ) (evs : List (SWOp × ℚ)) (uid : String) (t : ℚ) :
    ((((SlidingWindowRateLimiter.init w 0).run evs).record_message uid t).1 = false) ∧
    ((((SlidingWindowRateLimiter.init w 0).run evs).can_send_message uid t).1 = true) := by
  have hmax : ((SlidingWindowRateLimiter.init w 0).run evs).max_requests = 0 := by
    rw [run_max_requests]
    rfl
  have hempty : EntriesSat (fun ts => ts = [])
      ((SlidingWindowRateLimiter.init w 0).run evs) :=
    entriesSat_empty_run evs (SlidingWindowRateLimiter.init w 0) (by norm_num [init])
      (entriesSat_init _ w 0)
  have hnone : lookupKey uid
      (((SlidingWindowRateLimiter.init w 0).run evs).cleanup_window uid t).user_messages =
      none := by
    rw [lookupKey_cleanup_self]
    cases hlu : lookupKey uid ((SlidingWindowRateLimiter.init w 0).run evs).user_messages with
    | none => simp
    | some ts =>
        have hts : ts = [] := hempty uid ts hlu
        subst hts
        simp
  constructor
  · rw [record_message_fst, hnone]
    simp only [decide_eq_false_iff_not, hmax]
    omega
  · rw [can_send_message_fst, hnone]

open SlidingWindowRateLimiter in
/-- C3, counterexample: with `max_requests = 0` and an absent identity,
`record_message` returns false yet does not leave the state of the prune
alone — it creates a fresh empty dict entry for the identity. -/
theorem claim_C3_counterexample :
    (((SlidingWindowRateLimiter.init 10 0).record_message "A" 0).1 = false) ∧
    ((SlidingWindowRateLimiter.init 10 0).record_message "A" 0).2 ≠
      (SlidingWindowRateLimiter.init 10 0).cleanup_window "A" 0 := by
  decide

open SlidingWindowRateLimiter in
/-- C3 (amended): a rejected `record_message` leaves the stored state
unchanged for `ThrottlingRateLimiter`; for `SlidingWindowRateLimiter` with a
positive cap the state after a rejected call equals the state after the
specified prune alone (with `max_requests ≤ 0` a fresh empty entry can
appear, as the counterexample shows). -/
theorem claim_C3_amended :
    (∀ (s : ThrottlingRateLimiter) (uid : String) (t : ℚ),
        (s.record_message uid t).1 = false → (s.record_message uid t).2 = s) ∧
    (∀ (s : SlidingWindowRateLimiter) (uid : String) (t : ℚ),
        1 ≤ s.max_requests → (s.record_message uid t).1 = false →
        (s.record_message uid t).2 = s.cleanup_window uid t) := by
  constructor
  · intro s uid t h
    rw [ThrottlingRateLimiter.record_message] at h ⊢
    by_cases hc : s.can_send_message uid t = true
    · rw [if_pos hc] at h
      simp at h
    · rw [if_neg hc]
  · intro s uid t hmax h
    rw [record_message_fst] at h
    rw [record_message_cases]
    cases hlu : lookupKey uid (s.cleanup_window uid t).user_messages with
    | none =>
        simp only [hlu, decide_eq_false_iff_not] at h
        omega
    | some ts =>
        simp only [hlu, decide_eq_false_iff_not] at h
        simp only [hlu]
        rw [if_neg h]

/-- C3 witness: the amended theorem applied at concrete rejected calls of
both limiters. -/
theorem claim_C3_witness :
    (((⟨10, [("B", 0)]⟩ : ThrottlingRateLimiter).record_message "B" 1).2 =
      (⟨10, [("B", 0)]⟩ : ThrottlingRateLimiter)) ∧
    (((⟨10, 1, [("A", [0])]⟩ : SlidingWindowRateLimiter).record_message "A" 1).2 =
      (⟨10, 1, [("A", [0])]⟩ : SlidingWindowRateLimiter).cleanup_window "A" 1) :=
  ⟨claim_C3_amended.1 (⟨10, [("B", 0)]⟩ : ThrottlingRateLimiter) "B" 1
     (by norm_num [ThrottlingRateLimiter.record_message,
       ThrottlingRateLimiter.can_send_message, lookupKey]),
   claim_C3_amended.2 (⟨10, 1, [("A", [0])]⟩ : SlidingWindowRateLimiter) "A" 1
     (by norm_num)
     (by norm_num [SlidingWindowRateLimiter.record_message,
       SlidingWindowRateLimiter.cleanup_window, pruneTs, lookupKey, setKey])⟩

open SlidingWindowRateLimiter in
/-- C7, counterexample: the claim fails as stated.  With `max_requests = 0`,
a rejected `record_message` on a fresh identity leaves behind a freshly
created empty entry in the state map. -/
theorem claim_C7_counterexample :
    lookupKey "A" ((SlidingWindowRateLimiter.init 10 0).record_message "A" 0).2.user_messages =
      some [] := by
  decide

open SlidingWindowRateLimiter in
/-- C7 (amended with `1 ≤ max_requests`): with a positive cap, after any
sequence of public operations the state map contains no identity whose
timestamp sequence is empty — entries that empty during pruning are deleted
and `record_message` always appends into an entry it creates. -/
theorem claim_C7_amended (w : ℚ) (m : ℤ) (evs : List (SWOp × ℚ)) (uid : String)
    (ts : List ℚ) (hmax : 1 ≤ m)
    (hts : lookupKey uid ((SlidingWindowRateLimiter.init w m).run evs).user_messages =
      some ts) :
    ts ≠ [] :=
  entriesSat_ne_run evs (SlidingWindowRateLimiter.init w m) hmax
    (entriesSat_init _ w m) uid ts hts

/-- C7 witness: the amended theorem applied to the entry left by one
accepted call. -/
theorem claim_C7_witness : ([0] : List ℚ) ≠ [] :=
  claim_C7_amended 10 1 [(SWOp.record "A", 0)] "A" [0] (by decide) (by decide)

open SlidingWindowRateLimiter in
/-- C4: for `SlidingWindowRateLimiter` with `max_requests ≥ 1`, along every
run driven by a non-decreasing clock, every stored deque holds at most
`max_requests` timestamps inside any interval of length `window_size` — the
count of stored timestamps of any identity falling in `[a, a + window_size]`
never exceeds the cap. -/
theorem claim_C4 (w : ℚ) (m : ℤ) (evs : List (SWOp × ℚ)) (uid : String)
    (ts : List ℚ) (a : ℚ) (hmono : swTimesMono evs) (hmax : 1 ≤ m)
    (hts : lookupKey uid ((SlidingWindowRateLimiter.init w m).run evs).user_messages =
      some ts) :
    ((ts.countP (fun x => decide (a ≤ x ∧ x ≤ a + w)) : ℤ)) ≤ m := by
  have hlen : (ts.length : ℤ) ≤ max m 0 :=
    entriesSat_len_run evs (SlidingWindowRateLimiter.init w m) rfl
      (entriesSat_init _ w m) uid ts hts
  have hcount : ts.countP (fun x => decide (a ≤ x ∧ x ≤ a + w)) ≤ ts.length :=
    List.countP_le_length _
  omega

/-- C4 witness: the theorem applied to the deque left by one accepted call. -/
theorem claim_C4_witness :
    ((([(0 : ℚ)].countP (fun x => decide ((-5 : ℚ) ≤ x ∧ x ≤ -5 + 10))) : ℤ)) ≤ 1 :=
  claim_C4 10 1 [(SWOp.record "A", 0)] "A" [0] (-5)
    (by unfold swTimesMono swTimes; simp) (by decide) (by decide)

open SlidingWindowRateLimiter in
/-- C6, counterexample: the claim fails for `SlidingWindowRateLimiter` at the
exact expiry instant.  Record at time 0 with `window_size = 10`,
`max_requests = 1`; at time 10 the timestamp 0 is not yet pruned
(`0 < 10 - 10` is false), so `can_send_message` returns false, yet
`time_until_next_allowed` returns `0 + 10 - 10 = 0`, not a positive wait. -/
theorem claim_C6_counterexample :
    ((((SlidingWindowRateLimiter.init 10 1).run [(SWOp.record "A", 0)]).can_send_message
        "A" 10).1 = false) ∧
    ((((SlidingWindowRateLimiter.init 10 1).run [(SWOp.record "A", 0)]).time_until_next_allowed
        "A" 10).1 = 0) := by
  constructor
  · norm_num [run, applyOp, SlidingWindowRateLimiter.record_message,
      SlidingWindowRateLimiter.can_send_message, SlidingWindowRateLimiter.cleanup_window,
      SlidingWindowRateLimiter.init, pruneTs, lookupKey, setKey]
  · norm_num [run, applyOp, SlidingWindowRateLimiter.record_message,
      SlidingWindowRateLimiter.time_until_next_allowed, SlidingWindowRateLimiter.cleanup_window,
      SlidingWindowRateLimiter.init, pruneTs, lookupKey, setKey]

open SlidingWindowRateLimiter in
/-- C6 (amended): for `ThrottlingRateLimiter` the claim holds as stated —
when `can_send_message` is false the wait is strictly positive, when true it
is 0.  For `SlidingWindowRateLimiter`, when `can_send_message` is true the
wait is 0; when it is false the wait is non-negative, and it is strictly
positive whenever the earliest retained timestamp lies strictly inside the
window (`t - window_size < timestamps[0]`) — at the exact expiry boundary
the wait can be 0, as the counterexample shows. -/
theorem claim_C6_amended :
    (∀ (s : ThrottlingRateLimiter) (uid : String) (t : ℚ),
        (s.can_send_message uid t = false → 0 < s.time_until_next_allowed uid t) ∧
        (s.can_send_message uid t = true → s.time_until_next_allowed uid t = 0)) ∧
    (∀ (s : SlidingWindowRateLimiter) (uid : String) (t : ℚ),
        ((s.can_send_message uid t).1 = true → (s.time_until_next_allowed uid t).1 = 0) ∧
        ((s.can_send_message uid t).1 = false →
          0 ≤ (s.time_until_next_allowed uid t).1 ∧
          (∀ ts, lookupKey uid (s.cleanup_window uid t).user_messages = some ts →
            t - s.window_size < ts.headD 0 → 0 < (s.time_until_next_allowed uid t).1))) := by
  constructor
  · intro s uid t
    constructor
    · intro h
      rw [ThrottlingRateLimiter.can_send_message] at h
      rw [ThrottlingRateLimiter.time_until_next_allowed]
      cases hlu : lookupKey uid s.user_last_message with
      | none => rw [hlu] at h; simp at h
      | some last =>
          rw [hlu] at h
          simp only [decide_eq_false_iff_not, not_le] at h
          simp only [hlu]
          rw [lt_max_iff]
          left
          linarith
    · intro h
      rw [ThrottlingRateLimiter.can_send_message] at h
      rw [ThrottlingRateLimiter.time_until_next_allowed]
      cases hlu : lookupKey uid s.user_last_message with
      | none => simp [hlu]
      | some last =>
          rw [hlu] at h
          simp only [decide_eq_true_eq] at h
          simp only [hlu]
          exact max_eq_right (by linarith)
  · intro s uid t
    constructor
    · intro h
      rw [can_send_message_fst] at h
      rw [time_until_next_allowed_fst]
      cases hlu : lookupKey uid (s.cleanup_window uid t).user_messages with
      | none => simp [hlu]
      | some ts =>
          simp only [hlu] at h ⊢
          simp only [decide_eq_true_eq] at h
          rw [if_pos h]
    · intro h
      rw [can_send_message_fst] at h
      constructor
      · rw [time_until_next_allowed_fst]
        cases hlu : lookupKey uid (s.cleanup_window uid t).user_messages with
        | none => simp [hlu]
        | some ts =>
            simp only [hlu] at h ⊢
            simp only [decide_eq_false_iff_not] at h
            rw [if_neg h]
            exact le_max_right _ _
      · intro ts hts hhead
        rw [time_until_next_allowed_fst]
        cases hlu : lookupKey uid (s.cleanup_window uid t).user_messages with
        | none => rw [hlu] at hts; exact absurd hts (by simp)
        | some ts' =>
            rw [hlu] at hts
            obtain rfl : ts' = ts := by simpa using hts
            simp only [hlu] at h ⊢
            simp only [decide_eq_false_iff_not] at h
            rw [if_neg h]
            rw [lt_max_iff]
            left
            linarith

/-- C6 witness: the amended theorem applied at concrete inputs exercising
each implication of both limiters. -/
theorem claim_C6_witness :
    ((0 : ℚ) < (⟨10, [("B", 0)]⟩ : ThrottlingRateLimiter).time_until_next_allowed "B" 1) ∧
    ((⟨10, [("B", 0)]⟩ : ThrottlingRateLimiter).time_until_next_allowed "B" 12 = 0) ∧
    (((⟨10, 1, [("A", [0])]⟩ : SlidingWindowRateLimiter).time_until_next_allowed "A" 12).1 = 0) ∧
    ((0 : ℚ) ≤ ((⟨10, 1, [("A", [0])]⟩ : SlidingWindowRateLimiter).time_until_next_allowed "A" 5).1) ∧
    ((0 : ℚ) < ((⟨10, 1, [("A", [0])]⟩ : SlidingWindowRateLimiter).time_until_next_allowed "A" 5).1) :=
  ⟨(claim_C6_amended.1 (⟨10, [("B", 0)]⟩ : ThrottlingRateLimiter) "B" 1).1
     (by norm_num [ThrottlingRateLimiter.can_send_message, lookupKey]),
   (claim_C6_amended.1 (⟨10, [("B", 0)]⟩ : ThrottlingRateLimiter) "B" 12).2
     (by norm_num [ThrottlingRateLimiter.can_send_message, lookupKey]),
   (claim_C6_amended.2 (⟨10, 1, [("A", [0])]⟩ : SlidingWindowRateLimiter) "A" 12).1
     (by norm_num [SlidingWindowRateLimiter.can_send_message,
       SlidingWindowRateLimiter.cleanup_window, pruneTs, lookupKey, eraseKey]),
   ((claim_C6_amended.2 (⟨10, 1, [("A", [0])]⟩ : SlidingWindowRateLimiter) "A" 5).2
     (by norm_num [SlidingWindowRateLimiter.can_send_message,
       SlidingWindowRateLimiter.cleanup_window, pruneTs, lookupKey, setKey])).1,
   ((claim_C6_amended.2 (⟨10, 1, [("A", [0])]⟩ : SlidingWindowRateLimiter) "A" 5).2
     (by norm_num [SlidingWindowRateLimiter.can_send_message,
       SlidingWindowRateLimiter.cleanup_window, pruneTs, lookupKey, setKey])).2 [0]
     (by norm_num [SlidingWindowRateLimiter.cleanup_window, pruneTs, lookupKey, setKey])
     (by norm_num)⟩

open SlidingWindowRateLimiter in
/-- C8, counterexample: the claim fails for `SlidingWindowRateLimiter`.
After an accepted record at time 0 (`window_size = 10`, `max_requests = 1`),
calling `can_send_message` at time 20 prunes the expired timestamp and
deletes the identity's entry: the state map after the call differs from the
one before. -/
theorem claim_C8_counterexample :
    (((SlidingWindowRateLimiter.init 10 1).run [(SWOp.record "A", 0)]).can_send_message
        "A" 20).2 ≠
      (SlidingWindowRateLimiter.init 10 1).run [(SWOp.record "A", 0)] := by
  intro hcontra
  have h20 : lookupKey "A" ((((SlidingWindowRateLimiter.init 10 1).run
      [(SWOp.record "A", 0)]).can_send_message "A" 20).2).user_messages = none := by
    norm_num [run, applyOp, SlidingWindowRateLimiter.record_message,
      SlidingWindowRateLimiter.can_send_message, SlidingWindowRateLimiter.cleanup_window,
      SlidingWindowRateLimiter.init, pruneTs, lookupKey, setKey, eraseKey]
  have hbefore : lookupKey "A" (((SlidingWindowRateLimiter.init 10 1).run
      [(SWOp.record "A", 0)])).user_messages = some [0] := by
    norm_num [run, applyOp, SlidingWindowRateLimiter.record_message,
      SlidingWindowRateLimiter.cleanup_window, SlidingWindowRateLimiter.init,
      pruneTs, lookupKey, setKey]
  rw [hcontra, hbefore] at h20
  exact absurd h20 (by simp)

open SlidingWindowRateLimiter in
/-- C8 (amended): `can_send_message` of `ThrottlingRateLimiter` performs no
mutation, but for `SlidingWindowRateLimiter` it mutates by pruning: the
configuration is unchanged and every entry of the state map after the call
equals the entry before, except the queried identity's, which is replaced by
its pruned deque (and removed when the prune empties it or it was absent). -/
theorem claim_C8_amended :
    (∀ (s : ThrottlingRateLimiter) (uid : String) (t : ℚ),
        s.applyOp (TROp.canSend uid) t = s) ∧
    (∀ (s : SlidingWindowRateLimiter) (uid : String) (t : ℚ),
        (s.can_send_message uid t).2.window_size = s.window_size ∧
        (s.can_send_message uid t).2.max_requests = s.max_requests ∧
        (∀ uid' : String,
          lookupKey uid' (s.can_send_message uid t).2.user_messages =
            if uid' = uid then
              (match lookupKey uid s.user_messages with
               | none => none
               | some ts =>
                   if pruneTs (t - s.window_size) ts = [] then none
                   else some (pruneTs (t - s.window_size) ts))
            else lookupKey uid' s.user_messages)) := by
  constructor
  · intro s uid t
    rfl
  · intro s uid t
    refine ⟨by rw [can_send_message_snd, cleanup_window_window_size],
            by rw [can_send_message_snd, cleanup_window_max_requests], ?_⟩
    intro uid'
    rw [can_send_message_snd]
    by_cases he : uid' = uid
    · subst he
      rw [if_pos rfl, lookupKey_cleanup_self]
    · rw [if_neg he, lookupKey_cleanup_other s he]

open SlidingWindowRateLimiter ThrottlingRateLimiter in
/-- C9: identity independence for both limiters.  Every public call invoked
with one identity leaves the stored entry of every other identity unchanged,
and the results of all three operations on an identity are determined by
that identity's stored entry together with the configuration — so operations
on one identity can never change another identity's outcomes. -/
theorem claim_C9 :
    (∀ (s : SlidingWindowRateLimiter) (op : SWOp) (t : ℚ) (uid' : String),
        uid' ≠ op.ident →
        lookupKey uid' (s.applyOp op t).user_messages =
          lookupKey uid' s.user_messages) ∧
    (∀ (s : ThrottlingRateLimiter) (op : TROp) (t : ℚ) (uid' : String),
        uid' ≠ op.ident →
        lookupKey uid' (s.applyOp op t).user_last_message =
          lookupKey uid' s.user_last_message) ∧
    (∀ (s s' : SlidingWindowRateLimiter) (uid : String) (t : ℚ),
        s.window_size = s'.window_size → s.max_requests = s'.max_requests →
        lookupKey uid s.user_messages = lookupKey uid s'.user_messages →
        (s.can_send_message uid t).1 = (s'.can_send_message uid t).1 ∧
        (s.record_message uid t).1 = (s'.record_message uid t).1 ∧
        (s.time_until_next_allowed uid t).1 = (s'.time_until_next_allowed uid t).1) ∧
    (∀ (s s' : ThrottlingRateLimiter) (uid : String) (t : ℚ),
        s.min_interval = s'.min_interval →
        lookupKey uid s.user_last_message = lookupKey uid s'.user_last_message →
        s.can_send_message uid t = s'.can_send_message uid t ∧
        (s.record_message uid t).1 = (s'.record_message uid t).1 ∧
        s.time_until_next_allowed uid t = s'.time_until_next_allowed uid t) := by
  refine ⟨?_, ?_, ?_, ?_⟩
  · intro s op t uid' hne
    cases op with
    | canSend u =>
        rw [SlidingWindowRateLimiter.applyOp, can_send_message_snd]
        exact lookupKey_cleanup_other s hne t
    | timeUntil u =>
        rw [SlidingWindowRateLimiter.applyOp, time_until_next_allowed_snd]
        exact lookupKey_cleanup_other s hne t
    | record u =>
        have hne2 : uid' ≠ u := hne
        rw [SlidingWindowRateLimiter.applyOp, SlidingWindowRateLimiter.lookupKey_record_snd,
          if_neg hne2]
        exact lookupKey_cleanup_other s hne2 t
  · intro s op t uid' hne
    cases op with
    | canSend u => rfl
    | timeUntil u => rfl
    | record u =>
        have hne2 : uid' ≠ u := hne
        rw [ThrottlingRateLimiter.applyOp, ThrottlingRateLimiter.lookupKey_record_update,
          if_neg (fun hc => hne2 hc.1)]
  · intro s s' uid t hw hm hl
    have hcl : lookupKey uid (s.cleanup_window uid t).user_messages =
        lookupKey uid (s'.cleanup_window uid t).user_messages := by
      rw [lookupKey_cleanup_self, lookupKey_cleanup_self, hl, hw]
    refine ⟨?_, ?_, ?_⟩
    · rw [SlidingWindowRateLimiter.can_send_message_fst,
        SlidingWindowRateLimiter.can_send_message_fst, hcl, hm]
    · rw [SlidingWindowRateLimiter.record_message_fst,
        SlidingWindowRateLimiter.record_message_fst, hcl, hm]
    · rw [time_until_next_allowed_fst, time_until_next_allowed_fst, hcl, hm, hw]
  · intro s s' uid t hd hl
    have hcan : s.can_send_message uid t = s'.can_send_message uid t := by
      rw [ThrottlingRateLimiter.can_send_message, ThrottlingRateLimiter.can_send_message,
        hl, hd]
    refine ⟨hcan, ?_, ?_⟩
    · rw [ThrottlingRateLimiter.record_fst_can_send, ThrottlingRateLimiter.record_fst_can_send,
        hcan]
    · rw [ThrottlingRateLimiter.time_until_next_allowed,
        ThrottlingRateLimiter.time_until_next_allowed, hl, hd]

/-- C9 witness: each part of the independence theorem applied at a concrete
input. -/
theorem claim_C9_witness :
    (lookupKey "Y" (((SlidingWindowRateLimiter.init 10 1).applyOp
        (SWOp.record "X") 0).user_messages) =
      lookupKey "Y" (SlidingWindowRateLimiter.init 10 1).user_messages) ∧
    (lookupKey "Y" (((ThrottlingRateLimiter.init 10).applyOp
        (TROp.record "X") 0).user_last_message) =
      lookupKey "Y" (ThrottlingRateLimiter.init 10).user_last_message) ∧
    (((⟨10, 1, [("Y", [3]), ("X", [0])]⟩ : SlidingWindowRateLimiter).can_send_message
        "Y" 4).1 =
      ((⟨10, 1, [("Y", [3])]⟩ : SlidingWindowRateLimiter).can_send_message "Y" 4).1) ∧
    ((⟨10, [("Y", 3), ("X", 0)]⟩ : ThrottlingRateLimiter).can_send_message "Y" 4 =
      (⟨10, [("Y", 3)]⟩ : ThrottlingRateLimiter).can_send_message "Y" 4) :=
  ⟨claim_C9.1 (SlidingWindowRateLimiter.init 10 1) (SWOp.record "X") 0 "Y" (by decide),
   claim_C9.2.1 (ThrottlingRateLimiter.init 10) (TROp.record "X") 0 "Y" (by decide),
   (claim_C9.2.2.1 (⟨10, 1, [("Y", [3]), ("X", [0])]⟩ : SlidingWindowRateLimiter)
     (⟨10, 1, [("Y", [3])]⟩ : SlidingWindowRateLimiter) "Y" 4 rfl rfl (by decide)).1,
   (claim_C9.2.2.2 (⟨10, [("Y", 3), ("X", 0)]⟩ : ThrottlingRateLimiter)
     (⟨10, [("Y", 3)]⟩ : ThrottlingRateLimiter) "Y" 4 rfl (by decide)).1⟩

open ThrottlingRateLimiter in
/-- C5: for `ThrottlingRateLimiter`, along every run driven by a
non-decreasing clock, the timestamps of consecutive accepted `record_message`
events of any one identity are at least `min_interval` apart. -/
theorem claim_C5 (d : ℚ) (evs : List (TROp × ℚ)) (uid : String)
    (hmono : trTimesMono evs) :
    (acceptTimes uid
        (ThrottlingRateLimiter.runTrace (ThrottlingRateLimiter.init d) [] evs).2).Chain'
      (fun a b => d ≤ b - a) := by
  refine runTrace_chain d evs (ThrottlingRateLimiter.init d) [] rfl ?_ ?_ uid
  · intro uid'
    simp [ThrottlingRateLimiter.init, acceptTimes]
  · intro uid'
    simp [acceptTimes]

/-- C5 witness: the theorem applied to a concrete run (accepts at times 0 and
12, a rejection at time 5 in between). -/
theorem claim_C5_witness :
    (acceptTimes "B"
        (ThrottlingRateLimiter.runTrace (ThrottlingRateLimiter.init 10) []
          [(TROp.record "B", 0), (TROp.record "B", 5), (TROp.record "B", 12)]).2).Chain'
      (fun a b => (10 : ℚ) ≤ b - a) :=
  claim_C5 10 [(TROp.record "B", 0), (TROp.record "B", 5), (TROp.record "B", 12)] "B"
    (by unfold trTimesMono trTimes; norm_num)

open ThrottlingRateLimiter in
/-- C10: for `ThrottlingRateLimiter` with `min_interval ≤ 0`, along every run
driven by a non-decreasing clock whose call times do not exceed the
evaluation time `t`, both `can_send_message` and `record_message` answer true
for every identity: the degenerate configuration admits every request. -/
theorem claim_C10 (d : ℚ) (evs : List (TROp × ℚ)) (uid : String) (t : ℚ)
    (hd : d ≤ 0) (hmono : trTimesMono evs) (hle : ∀ e ∈ evs, e.2 ≤ t) :
    (((ThrottlingRateLimiter.init d).run evs).can_send_message uid t = true) ∧
    ((((ThrottlingRateLimiter.init d).run evs).record_message uid t).1 = true) := by
  have hmin : ((ThrottlingRateLimiter.init d).run evs).min_interval = d := by
    rw [run_min_interval]
    rfl
  have hbound : ∀ uid' v,
      lookupKey uid' ((ThrottlingRateLimiter.init d).run evs).user_last_message = some v →
      v ≤ t := by
    refine run_stored_le t evs (ThrottlingRateLimiter.init d) ?_ hle
    intro uid' v hl
    simp [ThrottlingRateLimiter.init] at hl
  have hcan : ((ThrottlingRateLimiter.init d).run evs).can_send_message uid t = true := by
    rw [ThrottlingRateLimiter.can_send_message]
    cases hlu : lookupKey uid ((ThrottlingRateLimiter.init d).run evs).user_last_message with
    | none => rfl
    | some last =>
        have hv : last ≤ t := hbound uid last hlu
        simp only [decide_eq_true_eq, hmin]
        linarith
  exact ⟨hcan, by rw [ThrottlingRateLimiter.record_message, if_pos hcan]⟩

/-- C10 witness: the theorem applied to a concrete run with
`min_interval = 0`. -/
theorem claim_C10_witness :
    (((ThrottlingRateLimiter.init 0).run [(TROp.record "A", 1)]).can_send_message
      "A" 2 = true) ∧
    ((((ThrottlingRateLimiter.init 0).run [(TROp.record "A", 1)]).record_message
      "A" 2).1 = true) :=
  claim_C10 0 [(TROp.record "A", 1)] "A" 2 (by norm_num)
    (by unfold trTimesMono trTimes; norm_num) (by norm_num)
